import Mathlib

/-!
Shallow embedding of `logme-cli` (`src/logme.go`) in Lean 4.

The program is a CLI: `main` loads a `.env` file, builds a command table and
dispatches.  The `migrate`/`migrate-test` subcommands open a ClickHouse
connection (`getDbConn`), ensure the ledger table exists
(`createMigrationsTable`) and run pending `.sql` migration files
(`runMigrations`).  The `up`/`down`/`list`/`test` subcommands shell out to
docker and print the captured stdout.

Effectful calls (queries, file reads, SQL execution, inserts, clock) are
modelled by oracles supplied as function arguments; each runner function
returns its Go result together with a trace of the side-effecting events it
performed, in order.
-/

/-- A directory entry as returned by `ioutil.ReadDir`: a base name and
whether the entry is a directory. -/
structure FileEntry where
  name : String
  isDir : Bool
deriving Repr, DecidableEq

/-- Result of `db.QueryRow(...).Scan(&x)` for a query expected to yield one
value: a scanned value, the `sql.ErrNoRows` condition, or another error. -/
inductive ScanRes (α : Type) where
  | val (v : α)
  | noRows
  | err (e : String)
deriving Repr, DecidableEq

/-- One side-effecting step of the migration runner, in the order the Go code
performs them. -/
inductive Event where
  /-- Probe `SHOW TABLES LIKE 'migrations'` in `createMigrationsTable`. -/
  | ensureProbe
  /-- the `CREATE TABLE IF NOT EXISTS migrations ...` statement. -/
  | createTable
  /-- Per-file ledger lookup `SELECT 1 FROM migrations WHERE name = '<n>'`. -/
  | query (n : String)
  /-- Reading the file, `os.ReadFile(migrationDir + n)`. -/
  | readF (n : String)
  /-- Executing file `n`'s content, `db.Exec(ctx, content)`. -/
  | exec (n : String) (content : String)
  /-- Ledger insert `INSERT INTO migrations (name, dt) VALUES ('<n>', <ts>)`
  issued through `db.AsyncInsert`. -/
  | insert (n : String) (ts : Int)
  /-- Success notification `fmt.Println("Successfully migrated: " + n)`. -/
  | notify (n : String)
deriving Repr, DecidableEq

/-- The file name an event concerns (`none` for the table-ensure events). -/
def eventName : Event → Option String
  | .ensureProbe => none
  | .createTable => none
  | .query n => some n
  | .readF n => some n
  | .exec n _ => some n
  | .insert n _ => some n
  | .notify n => some n

/-- The migration-file extension checked by `strings.HasSuffix(file.Name(), ".sql")`. -/
def extSql : String := ".sql"

/-- Embedding of `strings.HasSuffix(n, ".sql")`, computed on the underlying
character lists. -/
def hasSqlExt (n : String) : Bool :=
  List.isSuffixOf extSql.data n.data

/-- Oracle for the database connection and filesystem as seen by
`runMigrations`: per-file ledger lookup result, file contents, SQL execution
result (`none` = success), async-insert result, and the current Unix time. -/
structure Db where
  hasRunQ : String → ScanRes Nat
  readFile : String → Except String String
  execSql : String → Option String
  insertRes : String → Int → Option String
  now : Int

/-- The loop body of `runMigrations` for a single directory entry: returns
`some e` when the Go code would `return err`, `none` when it falls through to
the next entry (skip or success), together with the events performed. -/
def processFile (db : Db) (f : FileEntry) : Option String × List Event :=
  -- skip directories
  if f.isDir then (none, [])
  -- skip non-sql files
  else if !(hasSqlExt f.name) then (none, [])
  else
    match db.hasRunQ f.name with
    | .err e => (some e, [.query f.name])  -- unknown error
    | q =>
      -- `var exists uint8` stays 0 when Scan returns sql.ErrNoRows
      let ex : Nat := match q with | .val v => v | _ => 0
      -- migration already ran, continue
      if ex = 1 then (none, [.query f.name])
      else
        match db.readFile f.name with
        | .error e => (some e, [.query f.name, .readF f.name])
        | .ok content =>
          match db.execSql content with
          | some e => (some e, [.query f.name, .readF f.name, .exec f.name content])
          | none =>
            match db.insertRes f.name db.now with
            | some e =>
                (some e, [.query f.name, .readF f.name, .exec f.name content,
                          .insert f.name db.now])
            | none =>
                (none, [.query f.name, .readF f.name, .exec f.name content,
                        .insert f.name db.now, .notify f.name])

/-- The `for _, file := range files` loop of `runMigrations`: processes
entries in order, stopping at the first entry whose body returns an error. -/
def runFiles (db : Db) : List FileEntry → Except String Unit × List Event
  | [] => (Except.ok (), [])
  | f :: rest =>
    match processFile db f with
    | (some e, tr) => (Except.error e, tr)
    | (none, tr) =>
      let (r, tr2) := runFiles db rest
      (r, tr ++ tr2)

/-- Insert a `FileEntry` into a list sorted by name (lexicographic order on
`String`). -/
def insertByName (f : FileEntry) : List FileEntry → List FileEntry
  | [] => [f]
  | g :: gs => if f.name ≤ g.name then f :: g :: gs else g :: insertByName f gs

/-- Sort directory entries by file name.  `ioutil.ReadDir` (Go standard
library) returns entries sorted by filename; the embedding makes that
guarantee explicit by sorting the raw listing. -/
def sortByName : List FileEntry → List FileEntry
  | [] => []
  | f :: fs => insertByName f (sortByName fs)

/-- Embedding of `runMigrations`: list the migration directory (sorted by
filename, as `ioutil.ReadDir` guarantees) and run the loop; a listing error
is returned before anything else happens. -/
def runMigrations (db : Db) (listing : Except String (List FileEntry)) :
    Except String Unit × List Event :=
  match listing with
  | .error e => (Except.error e, [])
  | .ok entries => runFiles db (sortByName entries)

/-- Environment variables read by `getDbConn`; `os.Getenv` yields `""` for an
unset variable, so unset is modelled as the empty string. -/
structure Env where
  dbAddr : String
  dbLocalAddr : String
  dbName : String
  dbUser : String
  dbPass : String
deriving Repr, DecidableEq

/-- The `clickhouse.Options` value passed to `clickhouse.Open`. -/
structure ConnOptions where
  addr : List String
  database : String
  username : String
  password : String
  compressionLZ4 : Bool
  maxExecutionTime : Nat
deriving Repr, DecidableEq

/-- Errors out of `getDbConn`: the `errors.New` configuration error raised
before any connection attempt, or an error returned by `clickhouse.Open`. -/
inductive ConnErr where
  | config (e : String)
  | openFail (e : String)
deriving Repr, DecidableEq

/-- The message of the configuration error in `getDbConn`. -/
def dbAddrRequiredMsg : String :=
  "environment variable DB_ADDR or DB_LOCAL_ADDR required for migrations"

/-- The database-name default applied when `DB_NAME` is unset. -/
def defaultDbName : String := "logme"

/-- The suffix appended to the database name in test mode. -/
def testSuffix : String := "_test"

/-- Embedding of `getDbConn`: resolve `DB_ADDR` with `DB_LOCAL_ADDR`
fallback, default the database name to `"logme"`, append `"_test"` in test
mode, then call `clickhouse.Open` (modelled by the `openErr` oracle).  The
second component records whether `clickhouse.Open` was reached (a network
connection attempted). -/
def getDbConn (env : Env) (isTest : Bool) (openErr : ConnOptions → Option String) :
    Except ConnErr ConnOptions × Bool :=
  let localAddr := env.dbLocalAddr
  let addr := env.dbAddr
  let addr := if addr = "" then localAddr else addr
  if addr = "" then
    (Except.error (ConnErr.config dbAddrRequiredMsg), false)
  else
    let dbName := if env.dbName = "" then defaultDbName else env.dbName
    let dbSuffix := if isTest then testSuffix else ""
    let opts : ConnOptions :=
      { addr := [addr]
        database := dbName ++ dbSuffix
        username := env.dbUser
        password := env.dbPass
        compressionLZ4 := true
        maxExecutionTime := 60 }
    match openErr opts with
    | some e => (Except.error (ConnErr.openFail e), true)
    | none => (Except.ok opts, true)

/-- Oracle for the two statements of `createMigrationsTable`: the
`SHOW TABLES LIKE 'migrations'` probe and the `CREATE TABLE` execution
(`none` = success). -/
structure LedgerDb where
  showTables : ScanRes String
  createRes : Option String

/-- Outcome of `createMigrationsTable`: normal return (with whether the
`CREATE TABLE` statement was issued), an error return from the create, or the
`panic(err.Error())` taken on an unknown probe error. -/
inductive TableOutcome where
  | ok (created : Bool)
  | failed (e : String)
  | panicked (e : String)
deriving Repr, DecidableEq

/-- Embedding of `createMigrationsTable`: probe table existence; on an
unknown probe error panic; if the probe scanned a name the table exists and
nothing is created; otherwise execute the `CREATE TABLE` statement. -/
def createMigrationsTable (ldb : LedgerDb) : TableOutcome × List Event :=
  match ldb.showTables with
  | .err e => (TableOutcome.panicked e, [Event.ensureProbe])  -- unknown error
  | q =>
    -- `var exists string` stays "" when Scan returns sql.ErrNoRows
    let ex : String := match q with | .val s => s | _ => ""
    -- migrations table already exists
    if ex ≠ "" then (TableOutcome.ok false, [Event.ensureProbe])
    else
      match ldb.createRes with
      | some e => (TableOutcome.failed e, [Event.ensureProbe, Event.createTable])
      | none => (TableOutcome.ok true, [Event.ensureProbe, Event.createTable])

/-- The first column name of the ledger table in the source. -/
def defaultNameCol : String := "name"

/-- The second column name of the ledger table in the source. -/
def defaultDtCol : String := "dt"

/-- Column names of the `CREATE TABLE` statement in `createMigrationsTable`,
transcribed from the source: `name String`, `dt DateTime`. -/
def createTableColumns : List (String × String) :=
  [(defaultNameCol, "String"), (defaultDtCol, "DateTime")]

/-- The `ORDER BY` clause of the `CREATE TABLE` statement, transcribed from
the source: `ORDER BY (name, dt)`. -/
def createTableOrderBy : List String := [defaultNameCol, defaultDtCol]

/-- Result of the `migrate` function (and hence of the migrate subcommands):
normal return, error return, or a propagated panic. -/
inductive MigrateOutcome where
  | ok
  | err (e : String)
  | panicked (e : String)
deriving Repr, DecidableEq

/-- Embedding of `migrate(isTest)`: open the connection, ensure the ledger
table, then run the migrations; each step's error stops the sequence. -/
def migrate (env : Env) (isTest : Bool) (openErr : ConnOptions → Option String)
    (ldb : LedgerDb) (db : Db) (listing : Except String (List FileEntry)) :
    MigrateOutcome × List Event :=
  match (getDbConn env isTest openErr).1 with
  | .error (.config e) => (MigrateOutcome.err e, [])
  | .error (.openFail e) => (MigrateOutcome.err e, [])
  | .ok _ =>
    match createMigrationsTable ldb with
    | (.panicked e, tr) => (MigrateOutcome.panicked e, tr)
    | (.failed e, tr) => (MigrateOutcome.err e, tr)
    | (.ok _, tr) =>
      match runMigrations db listing with
      | (.error e, tr2) => (MigrateOutcome.err e, tr ++ tr2)
      | (.ok _, tr2) => (MigrateOutcome.ok, tr ++ tr2)

/-- Result of `exec.Command(...).Output()`: captured stdout and the execution
error, if any. -/
structure ExecResult where
  out : String
  err : Option String
deriving Repr, DecidableEq

/-- The newline appended by `fmt.Printf("%s\n", out)`. -/
def lineBreak : String := "\n"

/-- Embedding of `up()`: shell out to `docker-compose up`; on error return
it, else print the captured stdout (second component: lines printed) and
return nil. -/
def up (r : ExecResult) : Except String Unit × List String :=
  match r.err with
  | some e => (Except.error e, [])
  | none => (Except.ok (), [r.out ++ lineBreak])

/-- Embedding of `down()`: shell out to `docker-compose down`; same error
handling as `up`. -/
def down (r : ExecResult) : Except String Unit × List String :=
  match r.err with
  | some e => (Except.error e, [])
  | none => (Except.ok (), [r.out ++ lineBreak])

/-- Embedding of `list()`: shell out to `docker ps`; same error handling as
`up`. -/
def listContainers (r : ExecResult) : Except String Unit × List String :=
  match r.err with
  | some e => (Except.error e, [])
  | none => (Except.ok (), [r.out ++ lineBreak])

/-- Embedding of `test()`: shell out to `docker exec ... go test`; the
execution error is discarded (`out, _ := ...`), the captured stdout is
printed and nil is returned unconditionally. -/
def testContainers (r : ExecResult) : Except String Unit × List String :=
  (Except.ok (), [r.out ++ lineBreak])

/-- The subcommand actions of the CLI app built in `main`. -/
inductive Dispatch where
  | runMigrate (isTest : Bool)
  | runUp
  | runDown
  | runList
  | runTest
  | unknown
deriving Repr, DecidableEq

/-- The command table of `main`: names and aliases mapped to actions. -/
def dispatch (cmd : String) : Dispatch :=
  if cmd = "migrate" ∨ cmd = "m" then .runMigrate false
  else if cmd = "migrate-test" ∨ cmd = "mt" then .runMigrate true
  else if cmd = "up" ∨ cmd = "u" then .runUp
  else if cmd = "down" ∨ cmd = "d" then .runDown
  else if cmd = "list" ∨ cmd = "l" then .runList
  else if cmd = "test" ∨ cmd = "t" then .runTest
  else .unknown

/-- Outcome of `main` up to subcommand dispatch: `log.Fatal` on a `.env` load
failure, or the dispatched action. -/
inductive MainOutcome where
  | fatalEnvLoad
  | dispatched (d : Dispatch)
deriving Repr, DecidableEq

/-- Embedding of `main` up to dispatch: `godotenv.Load()` runs first — a load
error (the `.env` file missing or unreadable, independent of the process
environment `env`) is fatal before the app runs; otherwise the subcommand is
dispatched. -/
def mainEntry (dotenvLoadErr : Option String) (env : Env) (cmd : String) :
    MainOutcome :=
  match dotenvLoadErr with
  | some _ => MainOutcome.fatalEnvLoad  -- log.Fatal("Error loading .env file")
  | none =>
    let _ := env
    MainOutcome.dispatched (dispatch cmd)

/-- A database whose per-file ledger lookup faithfully reflects a ledger
containing the names in `ledger`: `SELECT 1 FROM migrations WHERE name = n`
scans `1` when a record for `n` exists and returns `sql.ErrNoRows`
otherwise. -/
def ledgerDb (ledger : List String) (fileContent : String → Except String String)
    (execRes : String → Option String) (insRes : String → Int → Option String)
    (now : Int) : Db :=
  { hasRunQ := fun n => if ledger.contains n then .val 1 else .noRows
    readFile := fileContent
    execSql := execRes
    insertRes := insRes
    now := now }

/-- Number of times file `n`'s content was executed in a trace. -/
def execCount (tr : List Event) (n : String) : Nat :=
  tr.countP (fun e => match e with | .exec m _ => m = n | _ => false)

/-- Number of ledger inserts for file `n` in a trace. -/
def insertCount (tr : List Event) (n : String) : Nat :=
  tr.countP (fun e => match e with | .insert m _ => m = n | _ => false)

/-- Number of events of any kind concerning file `n` in a trace. -/
def touchCount (tr : List Event) (n : String) : Nat :=
  tr.countP (fun e => eventName e = some n)

/-- Concrete fixture: a first migration file. -/
def f001 : FileEntry := { name := "001_init.sql", isDir := false }

/-- Concrete fixture: a second migration file. -/
def f002 : FileEntry := { name := "002_add_index.sql", isDir := false }

/-- Concrete fixture: a non-sql file. -/
def fNotes : FileEntry := { name := "notes.txt", isDir := false }

/-- Concrete fixture: file content used in witnesses. -/
def ddl1 : String := "CREATE TABLE t (x UInt8) engine=MergeTree() ORDER BY x"

/-- Concrete fixture: a database with empty ledger where everything
succeeds. -/
def dbHappy : Db :=
  ledgerDb [] (fun _ => Except.ok ddl1) (fun _ => none) (fun _ _ => none) 100

example :
    runFiles dbHappy [f001] =
    (Except.ok (), [.query f001.name, .readF f001.name,
      .exec f001.name ddl1, .insert f001.name 100,
      .notify f001.name]) := rfl

example :
    runFiles (ledgerDb [f001.name] (fun _ => Except.ok ddl1) (fun _ => none)
      (fun _ _ => none) 100) [f001] =
    (Except.ok (), [.query f001.name]) := rfl

example : hasSqlExt f001.name = true := by decide

example : hasSqlExt fNotes.name = false := by decide

/-! ## Structural lemmas about the runner -/

/-- Every event of a single loop-body trace concerns that file. -/
theorem processFile_eventName (db : Db) (f : FileEntry) :
    ∀ e ∈ (processFile db f).2, eventName e = some f.name := by
  intro e he
  unfold processFile at he
  by_cases hd : f.isDir
  · simp [hd] at he
  · by_cases hs : hasSqlExt f.name
    · rcases hq : db.hasRunQ f.name with v | _ | msg <;> simp only [hd, hs, hq,
        Bool.not_true, if_false, ite_false, Bool.false_eq_true] at he
      · by_cases hv : v = 1
        · simp [hv] at he
          subst he; rfl
        · rcases hr : db.readFile f.name with msg | content <;>
            simp only [hr, hv, if_false, ite_false] at he
          · simp at he
            rcases he with rfl | rfl <;> rfl
          · rcases hx : db.execSql content with _ | msg <;> simp only [hx] at he
            · rcases hi : db.insertRes f.name db.now with _ | msg <;>
                simp only [hi] at he
              · simp at he
                rcases he with rfl | rfl | rfl | rfl | rfl <;> rfl
              · simp at he
                rcases he with rfl | rfl | rfl | rfl <;> rfl
            · simp at he
              rcases he with rfl | rfl | rfl <;> rfl
      · rcases hr : db.readFile f.name with msg | content <;> simp only [hr] at he
        · simp at he
          rcases he with rfl | rfl <;> rfl
        · rcases hx : db.execSql content with _ | msg <;> simp only [hx] at he
          · rcases hi : db.insertRes f.name db.now with _ | msg <;>
              simp only [hi] at he
            · simp at he
              rcases he with rfl | rfl | rfl | rfl | rfl <;> rfl
            · simp at he
              rcases he with rfl | rfl | rfl | rfl <;> rfl
          · simp at he
            rcases he with rfl | rfl | rfl <;> rfl
      · simp at he
        subst he; rfl
    · simp [hd, hs] at he

/-- The table-ensure stage emits only the probe and create events. -/
theorem createMigrationsTable_eventName (ldb : LedgerDb) :
    ∀ e ∈ (createMigrationsTable ldb).2, eventName e = none := by
  intro e he
  unfold createMigrationsTable at he
  rcases hq : ldb.showTables with s | _ | msg <;> simp only [hq] at he
  · by_cases hs : s = ""
    · rcases hc : ldb.createRes with _ | msg <;> simp [hs, hc] at he <;>
        rcases he with rfl | rfl <;> rfl
    · simp [hs] at he
      subst he; rfl
  · rcases hc : ldb.createRes with _ | msg <;> simp [hc] at he <;>
      rcases he with rfl | rfl <;> rfl
  · simp at he
    subst he; rfl

/-- Unfolding of the loop on a cons cell. -/
theorem runFiles_cons (db : Db) (f : FileEntry) (rest : List FileEntry) :
    runFiles db (f :: rest) =
      match processFile db f with
      | (some e, tr) => (Except.error e, tr)
      | (none, tr) => ((runFiles db rest).1, tr ++ (runFiles db rest).2) := rfl

/-- A loop-body error stops the loop with just that body's trace. -/
theorem runFiles_cons_stop (db : Db) (f : FileEntry) (rest : List FileEntry)
    (e : String) (tr : List Event) (h : processFile db f = (some e, tr)) :
    runFiles db (f :: rest) = (Except.error e, tr) := by
  rw [runFiles_cons, h]

/-- A non-error loop body contributes its trace and the loop continues. -/
theorem runFiles_cons_go (db : Db) (f : FileEntry) (rest : List FileEntry)
    (h : (processFile db f).1 = none) :
    runFiles db (f :: rest) =
      ((runFiles db rest).1, (processFile db f).2 ++ (runFiles db rest).2) := by
  have hpf : processFile db f = ((processFile db f).1, (processFile db f).2) := rfl
  rw [h] at hpf
  rw [runFiles_cons, hpf]

/-- Every event of a run belongs to the loop body of one of its files. -/
theorem runFiles_trace_mem (db : Db) :
    ∀ (fs : List FileEntry), ∀ e ∈ (runFiles db fs).2,
      ∃ f ∈ fs, e ∈ (processFile db f).2 := by
  intro fs
  induction fs with
  | nil => intro e he; simp [runFiles] at he
  | cons f rest ih =>
    intro e he
    by_cases h : (processFile db f).1 = none
    · rw [runFiles_cons_go db f rest h] at he
      simp only [List.mem_append] at he
      rcases he with he | he
      · exact ⟨f, by simp, he⟩
      · obtain ⟨g, hg, hge⟩ := ih e he
        exact ⟨g, by simp [hg], hge⟩
    · obtain ⟨msg, ho⟩ : ∃ msg, (processFile db f).1 = some msg := by
        rcases hcase : (processFile db f).1 with _ | msg
        · exact absurd hcase h
        · exact ⟨msg, rfl⟩
      have hpf : processFile db f = (some msg, (processFile db f).2) := by
        rw [← ho]
      rw [runFiles_cons_stop db f rest msg _ hpf] at he
      exact ⟨f, by simp, he⟩

/-- Running a list whose first part is all non-error bodies prepends those
bodies' traces and hands control to the rest. -/
theorem runFiles_append_go (db : Db) (pre rest : List FileEntry)
    (h : ∀ f ∈ pre, (processFile db f).1 = none) :
    runFiles db (pre ++ rest) =
      ((runFiles db rest).1,
        (pre.map (fun f => (processFile db f).2)).flatten ++ (runFiles db rest).2) := by
  induction pre with
  | nil => simp [runFiles]
  | cons f pre ih =>
    have hf : (processFile db f).1 = none := h f (by simp)
    have hrec := ih (fun g hg => h g (by simp [hg]))
    rw [List.cons_append, runFiles_cons_go db f (pre ++ rest) hf, hrec]
    simp [List.append_assoc]

/-- A run that returns nil had a non-error loop body for every file. -/
theorem runFiles_ok_all_none (db : Db) :
    ∀ (fs : List FileEntry), (runFiles db fs).1 = Except.ok () →
      ∀ f ∈ fs, (processFile db f).1 = none := by
  intro fs
  induction fs with
  | nil => intro _ f hf; simp at hf
  | cons g rest ih =>
    intro hok f hf
    by_cases h : (processFile db g).1 = none
    · rw [runFiles_cons_go db g rest h] at hok
      rcases List.mem_cons.mp hf with rfl | hf2
      · exact h
      · exact ih hok f hf2
    · obtain ⟨msg, ho⟩ : ∃ msg, (processFile db g).1 = some msg := by
        rcases hcase : (processFile db g).1 with _ | msg
        · exact absurd hcase h
        · exact ⟨msg, rfl⟩
      have hpf : processFile db g = (some msg, (processFile db g).2) := by
        rw [← ho]
      rw [runFiles_cons_stop db g rest msg _ hpf] at hok
      exact absurd hok (by simp)

/-- The trace of a nil-returning run is the concatenation, in list order, of
the complete per-file traces. -/
theorem runFiles_ok_trace (db : Db) (fs : List FileEntry)
    (hok : (runFiles db fs).1 = Except.ok ()) :
    (runFiles db fs).2 = (fs.map (fun f => (processFile db f).2)).flatten := by
  have h := runFiles_append_go db fs [] (runFiles_ok_all_none db fs hok)
  rw [List.append_nil] at h
  rw [h]
  simp [runFiles]

/-- The ordering relation used by the directory listing: comparison of file
names. -/
def nameLe (a b : FileEntry) : Prop := a.name ≤ b.name

/-- Inserting into a list permutes consing onto it. -/
theorem insertByName_perm (f : FileEntry) (l : List FileEntry) :
    (insertByName f l).Perm (f :: l) := by
  induction l with
  | nil => exact List.Perm.refl _
  | cons g gs ih =>
    unfold insertByName
    split
    · exact List.Perm.refl _
    · exact (ih.cons g).trans (List.Perm.swap f g gs)

/-- The sorted listing is a permutation of the raw listing. -/
theorem sortByName_perm (fs : List FileEntry) : (sortByName fs).Perm fs := by
  induction fs with
  | nil => exact List.Perm.refl _
  | cons f fs ih => exact (insertByName_perm f (sortByName fs)).trans (ih.cons f)

/-- Membership through insertion. -/
theorem mem_insertByName {b f : FileEntry} {l : List FileEntry} :
    b ∈ insertByName f l ↔ b = f ∨ b ∈ l := by
  rw [(insertByName_perm f l).mem_iff]
  simp

/-- Insertion preserves sortedness by name. -/
theorem insertByName_pairwise (f : FileEntry) (l : List FileEntry)
    (h : List.Pairwise nameLe l) : List.Pairwise nameLe (insertByName f l) := by
  induction l with
  | nil => simp [insertByName, nameLe]
  | cons g gs ih =>
    rw [List.pairwise_cons] at h
    unfold insertByName
    split
    case isTrue hle =>
      refine List.pairwise_cons.mpr ⟨?_, List.pairwise_cons.mpr h⟩
      intro b hb
      rcases List.mem_cons.mp hb with rfl | hb2
      · exact hle
      · exact le_trans hle (h.1 b hb2)
    case isFalse hgt =>
      have hgf : nameLe g f := le_of_not_le hgt
      refine List.pairwise_cons.mpr ⟨?_, ih h.2⟩
      intro b hb
      rcases mem_insertByName.mp hb with rfl | hb2
      · exact hgf
      · exact h.1 b hb2

/-- The directory listing is processed in sorted (lexicographic) name order. -/
theorem sortByName_sorted (fs : List FileEntry) :
    List.Pairwise nameLe (sortByName fs) := by
  induction fs with
  | nil => exact List.Pairwise.nil
  | cons f fs ih => exact insertByName_pairwise f (sortByName fs) ih

/-- Counting distributes over trace concatenation. -/
theorem execCount_append (a b : List Event) (n : String) :
    execCount (a ++ b) n = execCount a n + execCount b n :=
  List.countP_append _ _ _

/-- Counting inserts distributes over trace concatenation. -/
theorem insertCount_append (a b : List Event) (n : String) :
    insertCount (a ++ b) n = insertCount a n + insertCount b n :=
  List.countP_append _ _ _

/-- Counting touches distributes over trace concatenation. -/
theorem touchCount_append (a b : List Event) (n : String) :
    touchCount (a ++ b) n = touchCount a n + touchCount b n :=
  List.countP_append _ _ _

/-- A trace none of whose events concern `n` contributes no executions,
inserts or touches for `n`. -/
theorem counts_zero_of_not_named (tr : List Event) (n : String)
    (h : ∀ e ∈ tr, eventName e ≠ some n) :
    execCount tr n = 0 ∧ insertCount tr n = 0 ∧ touchCount tr n = 0 := by
  refine ⟨?_, ?_, ?_⟩
  · rw [execCount, List.countP_eq_zero]
    intro e he
    have hn := h e he
    cases e <;> simp_all [eventName]
  · rw [insertCount, List.countP_eq_zero]
    intro e he
    have hn := h e he
    cases e <;> simp_all [eventName]
  · rw [touchCount, List.countP_eq_zero]
    intro e he
    have hn := h e he
    cases e <;> simp_all [eventName]

/-- Another file's loop body contributes nothing for `n`. -/
theorem counts_zero_of_other_file (db : Db) (g : FileEntry) (n : String)
    (hne : g.name ≠ n) :
    execCount (processFile db g).2 n = 0 ∧ insertCount (processFile db g).2 n = 0 ∧
      touchCount (processFile db g).2 n = 0 :=
  counts_zero_of_not_named _ n (fun e he => by
    rw [processFile_eventName db g e he]
    simp [hne])

/-- A concatenation of loop bodies of files all named differently from `n`
contributes nothing for `n`. -/
theorem counts_zero_flatten (db : Db) (l : List FileEntry) (n : String)
    (h : ∀ g ∈ l, g.name ≠ n) :
    execCount ((l.map (fun f => (processFile db f).2)).flatten) n = 0 ∧
      insertCount ((l.map (fun f => (processFile db f).2)).flatten) n = 0 ∧
      touchCount ((l.map (fun f => (processFile db f).2)).flatten) n = 0 :=
  counts_zero_of_not_named _ n (by
    intro e he
    rw [List.mem_flatten] at he
    obtain ⟨tr, htr, hetr⟩ := he
    rw [List.mem_map] at htr
    obtain ⟨g, hg, rfl⟩ := htr
    rw [processFile_eventName db g e hetr]
    simp [h g hg])

/-- A directory entry is skipped with no side effect. -/
theorem processFile_skip_dir (db : Db) (f : FileEntry) (h : f.isDir = true) :
    processFile db f = (none, []) := by
  unfold processFile
  rw [h]
  simp

/-- A non-`.sql` entry is skipped with no side effect. -/
theorem processFile_skip_ext (db : Db) (f : FileEntry) (h1 : f.isDir = false)
    (h2 : hasSqlExt f.name = false) :
    processFile db f = (none, []) := by
  unfold processFile
  rw [h1, h2]
  simp

/-- A recorded migration is skipped after only the ledger lookup. -/
theorem processFile_skip_recorded (db : Db) (f : FileEntry) (h1 : f.isDir = false)
    (h2 : hasSqlExt f.name = true) (hq : db.hasRunQ f.name = ScanRes.val 1) :
    processFile db f = (none, [Event.query f.name]) := by
  unfold processFile
  rw [h1, h2, hq]
  simp

/-- An unknown ledger-lookup error is returned after only the lookup. -/
theorem processFile_query_err (db : Db) (f : FileEntry) (msg : String)
    (h1 : f.isDir = false) (h2 : hasSqlExt f.name = true)
    (hq : db.hasRunQ f.name = ScanRes.err msg) :
    processFile db f = (some msg, [Event.query f.name]) := by
  unfold processFile
  rw [h1, h2, hq]
  simp

/-- A failing SQL body stops the loop body right after the execution, with no
ledger insert. -/
theorem processFile_exec_fail (db : Db) (f : FileEntry) (c msg : String)
    (h1 : f.isDir = false) (h2 : hasSqlExt f.name = true)
    (hq : db.hasRunQ f.name = ScanRes.noRows)
    (hr : db.readFile f.name = Except.ok c)
    (hx : db.execSql c = some msg) :
    processFile db f = (some msg, [Event.query f.name, Event.readF f.name,
      Event.exec f.name c]) := by
  unfold processFile
  rw [h1, h2, hq]
  simp [hr, hx]

/-- The `sql.ErrNoRows` lookup result is treated as not-yet-run: the file
proceeds to be read. -/
theorem processFile_noRows_reads (db : Db) (f : FileEntry) (h1 : f.isDir = false)
    (h2 : hasSqlExt f.name = true) (hq : db.hasRunQ f.name = ScanRes.noRows) :
    Event.readF f.name ∈ (processFile db f).2 := by
  unfold processFile
  rw [h1, h2, hq]
  rcases hr : db.readFile f.name with msg | c
  · simp [hr]
  · rcases hx : db.execSql c with _ | msg
    · rcases hi : db.insertRes f.name db.now with _ | msg <;> simp [hr, hx, hi]
    · simp [hr, hx]

/-- A non-error, non-skipped loop body performed the full successful
sequence: lookup, read, execution, ledger insert, notification. -/
theorem processFile_none_success (db : Db) (f : FileEntry)
    (hdir : f.isDir = false) (hsql : hasSqlExt f.name = true)
    (hq : db.hasRunQ f.name = ScanRes.noRows)
    (hnone : (processFile db f).1 = none) :
    ∃ c, db.readFile f.name = Except.ok c ∧ db.execSql c = none ∧
      db.insertRes f.name db.now = none ∧
      processFile db f = (none, [Event.query f.name, Event.readF f.name,
        Event.exec f.name c, Event.insert f.name db.now, Event.notify f.name]) := by
  unfold processFile at hnone ⊢
  rw [hdir, hsql, hq] at hnone ⊢
  rcases hr : db.readFile f.name with msg | c
  · rw [hr] at hnone
    simp at hnone
  · rcases hx : db.execSql c with _ | msg
    · rcases hi : db.insertRes f.name db.now with _ | msg
      · exact ⟨c, rfl, hx, rfl, by simp [hx, hi]⟩
      · rw [hr] at hnone
        simp [hx, hi] at hnone
    · rw [hr] at hnone
      simp [hx] at hnone

/-- For a nil-returning `migrate`, the trace is the table-ensure stage's
trace followed by the runner's trace, and the runner returned nil. -/
theorem migrate_ok_decomp (env : Env) (isTest : Bool)
    (openErr : ConnOptions → Option String) (ldb : LedgerDb) (db : Db)
    (entries : List FileEntry)
    (h : (migrate env isTest openErr ldb db (Except.ok entries)).1 =
      MigrateOutcome.ok) :
    (migrate env isTest openErr ldb db (Except.ok entries)).2 =
      (createMigrationsTable ldb).2 ++ (runFiles db (sortByName entries)).2
    ∧ (runFiles db (sortByName entries)).1 = Except.ok () := by
  unfold migrate at h ⊢
  rcases hg : (getDbConn env isTest openErr).1 with ce | opts
  · rcases ce with e | e <;> rw [hg] at h <;> simp at h
  · rw [hg] at h
    rcases ht : createMigrationsTable ldb with ⟨tout, ttr⟩
    rw [ht] at h
    rcases tout with created | e | e
    · simp only [runMigrations] at h ⊢
      rcases hr : runFiles db (sortByName entries) with ⟨rr, rtr⟩
      rw [hr] at h
      rcases rr with e | u
      · simp at h
      · simp
    · simp at h
    · simp at h

/-! ## Claim theorems -/

/-- C1: for every migration file `F` in the directory with no ledger record,
one nil-returning invocation of the migrate command executes `F`'s file
content exactly once and issues exactly one ledger insert for `F` (name =
`F`'s filename, timestamp = the current Unix time), the insert coming only
after `F`'s execution succeeded. -/
theorem c1_unrecorded_migration_runs_once
    (env : Env) (isTest : Bool) (openErr : ConnOptions → Option String)
    (ldb : LedgerDb) (ledger : List String)
    (fileContent : String → Except String String)
    (execRes : String → Option String) (insRes : String → Int → Option String)
    (now : Int) (entries : List FileEntry) (F : FileEntry)
    (hnodup : (entries.map FileEntry.name).Nodup)
    (hF : F ∈ entries) (hdir : F.isDir = false) (hsql : hasSqlExt F.name = true)
    (hnew : ledger.contains F.name = false)
    (hok : (migrate env isTest openErr ldb
        (ledgerDb ledger fileContent execRes insRes now) (Except.ok entries)).1 =
      MigrateOutcome.ok) :
    ∃ t1 t2 c, fileContent F.name = Except.ok c ∧
      (migrate env isTest openErr ldb (ledgerDb ledger fileContent execRes insRes now)
          (Except.ok entries)).2 =
        t1 ++ [Event.query F.name, Event.readF F.name, Event.exec F.name c,
               Event.insert F.name now, Event.notify F.name] ++ t2
      ∧ execCount (migrate env isTest openErr ldb
          (ledgerDb ledger fileContent execRes insRes now) (Except.ok entries)).2
          F.name = 1
      ∧ insertCount (migrate env isTest openErr ldb
          (ledgerDb ledger fileContent execRes insRes now) (Except.ok entries)).2
          F.name = 1 := by
  set db := ledgerDb ledger fileContent execRes insRes now with hdb
  obtain ⟨htr, hrun⟩ := migrate_ok_decomp env isTest openErr ldb db entries hok
  have hperm := sortByName_perm entries
  have hFs : F ∈ sortByName entries := hperm.mem_iff.mpr hF
  obtain ⟨l1, l2, hsplit⟩ := List.append_of_mem hFs
  have hall := runFiles_ok_all_none db _ hrun
  have hFnone : (processFile db F).1 = none := hall F hFs
  have hq : db.hasRunQ F.name = ScanRes.noRows := by
    have hfield : db.hasRunQ F.name =
        (if ledger.contains F.name then ScanRes.val 1 else ScanRes.noRows) := rfl
    rw [hfield, hnew]
    simp
  obtain ⟨c, hread, hx, hi, hpf⟩ := processFile_none_success db F hdir hsql hq hFnone
  have hruntr : (runFiles db (sortByName entries)).2 =
      ((sortByName entries).map (fun f => (processFile db f).2)).flatten :=
    runFiles_ok_trace db _ hrun
  rw [hsplit] at htr
  rw [hsplit, List.map_append, List.map_cons, List.flatten_append,
    List.flatten_cons, hpf] at hruntr
  have hnodup2 : ((sortByName entries).map FileEntry.name).Nodup :=
    ((hperm.map FileEntry.name).nodup_iff).mpr hnodup
  rw [hsplit, List.map_append, List.map_cons, List.nodup_middle] at hnodup2
  have hFnot := (List.nodup_cons.mp hnodup2).1
  have h1 : ∀ g ∈ l1, g.name ≠ F.name := by
    intro g hg hgn
    exact hFnot (by
      rw [← hgn]
      exact List.mem_append_left _ (List.mem_map_of_mem FileEntry.name hg))
  have h2 : ∀ g ∈ l2, g.name ≠ F.name := by
    intro g hg hgn
    exact hFnot (by
      rw [← hgn]
      exact List.mem_append_right _ (List.mem_map_of_mem FileEntry.name hg))
  have httr := counts_zero_of_not_named (createMigrationsTable ldb).2 F.name
    (fun e he => by rw [createMigrationsTable_eventName ldb e he]; simp)
  have hj1 := counts_zero_flatten db l1 F.name h1
  have hj2 := counts_zero_flatten db l2 F.name h2
  refine ⟨(createMigrationsTable ldb).2 ++ (l1.map (fun f => (processFile db f).2)).flatten,
          (l2.map (fun f => (processFile db f).2)).flatten, c, hread, ?_, ?_, ?_⟩
  · rw [htr, hruntr]
    simp [List.append_assoc]
    rfl
  · rw [htr, hruntr]
    simp only [execCount_append, httr.1, hj1.1, hj2.1]
    simp [execCount]
  · rw [htr, hruntr]
    simp only [insertCount_append, httr.2.1, hj1.2.1, hj2.2.1]
    simp [insertCount]

/-- The ledger table's name as probed by `SHOW TABLES LIKE 'migrations'`. -/
def migrationsTableName : String := "migrations"

/-- Concrete fixture: an environment with only the primary address set. -/
def envHappy : Env :=
  { dbAddr := "localhost:9000", dbLocalAddr := "", dbName := "", dbUser := "",
    dbPass := "" }

/-- Concrete fixture: `clickhouse.Open` succeeding. -/
def openAlwaysOk : ConnOptions → Option String := fun _ => none

/-- Concrete fixture: a ledger table that already exists. -/
def ldbExisting : LedgerDb :=
  { showTables := ScanRes.val migrationsTableName, createRes := none }

/-- Witness for C1: on a fresh ledger, one invocation over `001_init.sql`
executes it once and records it once. -/
theorem c1_witness :
    execCount (migrate envHappy false openAlwaysOk ldbExisting
      (ledgerDb [] (fun _ => Except.ok ddl1) (fun _ => none) (fun _ _ => none) 100)
      (Except.ok [f001])).2 f001.name = 1 ∧
    insertCount (migrate envHappy false openAlwaysOk ldbExisting
      (ledgerDb [] (fun _ => Except.ok ddl1) (fun _ => none) (fun _ _ => none) 100)
      (Except.ok [f001])).2 f001.name = 1 := by
  obtain ⟨t1, t2, c, hc, htr, hx, hi⟩ :=
    c1_unrecorded_migration_runs_once envHappy false openAlwaysOk ldbExisting []
      (fun _ => Except.ok ddl1) (fun _ => none) (fun _ _ => none) 100 [f001] f001
      (by decide) (by decide) (by decide) (by decide) rfl rfl
  exact ⟨hx, hi⟩

/-- A recorded migration's loop body performs at most the ledger lookup. -/
theorem processFile_recorded_no_side_effects (db : Db) (g : FileEntry)
    (hq : db.hasRunQ g.name = ScanRes.val 1) :
    ∀ e ∈ (processFile db g).2, e = Event.query g.name := by
  intro e he
  by_cases hd : g.isDir = true
  · rw [processFile_skip_dir db g hd] at he
    simp at he
  · have hd2 : g.isDir = false := by simpa using hd
    by_cases hs : hasSqlExt g.name = true
    · rw [processFile_skip_recorded db g hd2 hs hq] at he
      simpa using he
    · have hs2 : hasSqlExt g.name = false := by simpa using hs
      rw [processFile_skip_ext db g hd2 hs2] at he
      simp at he

/-- Every event of a migrate invocation comes from the table-ensure stage or
from the runner. -/
theorem migrate_trace_mem (env : Env) (isTest : Bool)
    (openErr : ConnOptions → Option String) (ldb : LedgerDb) (db : Db)
    (entries : List FileEntry) :
    ∀ e ∈ (migrate env isTest openErr ldb db (Except.ok entries)).2,
      e ∈ (createMigrationsTable ldb).2 ∨ e ∈ (runFiles db (sortByName entries)).2 := by
  intro e he
  unfold migrate at he
  rcases hg : (getDbConn env isTest openErr).1 with ce | opts
  · rcases ce with msg | msg <;> rw [hg] at he <;> simp at he
  · rw [hg] at he
    rcases ht : createMigrationsTable ldb with ⟨tout, ttr⟩
    rw [ht] at he
    rcases tout with created | msg | msg
    · simp only [runMigrations] at he
      rcases hr : runFiles db (sortByName entries) with ⟨rr, rtr⟩
      rw [hr] at he
      rcases rr with msg | u <;>
        · simp only [] at he
          rw [List.mem_append] at he
          rcases he with he | he
          · exact Or.inl he
          · exact Or.inr he
    · exact Or.inl he
    · exact Or.inl he

/-- C2: for every migration file whose name the ledger already records, a
migrate invocation performs zero SQL executions and zero new ledger inserts
for that name: the file is skipped. -/
theorem c2_recorded_migration_skipped
    (env : Env) (isTest : Bool) (openErr : ConnOptions → Option String)
    (ldb : LedgerDb) (ledger : List String)
    (fileContent : String → Except String String)
    (execRes : String → Option String) (insRes : String → Int → Option String)
    (now : Int) (entries : List FileEntry) (n : String)
    (hrec : ledger.contains n = true) :
    execCount (migrate env isTest openErr ldb
      (ledgerDb ledger fileContent execRes insRes now) (Except.ok entries)).2 n = 0 ∧
    insertCount (migrate env isTest openErr ldb
      (ledgerDb ledger fileContent execRes insRes now) (Except.ok entries)).2 n = 0 := by
  set db := ledgerDb ledger fileContent execRes insRes now with hdb
  constructor
  · rw [execCount, List.countP_eq_zero]
    intro e he
    rcases migrate_trace_mem env isTest openErr ldb db entries e he with hT | hR
    · have hn := createMigrationsTable_eventName ldb e hT
      cases e <;> simp_all [eventName]
    · obtain ⟨g, hg, hge⟩ := runFiles_trace_mem db _ e hR
      have hname := processFile_eventName db g e hge
      by_cases hgn : g.name = n
      · have hq : db.hasRunQ g.name = ScanRes.val 1 := by
          have hfield : db.hasRunQ g.name =
              (if ledger.contains g.name then ScanRes.val 1 else ScanRes.noRows) := rfl
          rw [hfield, hgn, hrec]
          simp
        have he2 := processFile_recorded_no_side_effects db g hq e hge
        subst he2
        simp
      · cases e <;> simp_all [eventName]
  · rw [insertCount, List.countP_eq_zero]
    intro e he
    rcases migrate_trace_mem env isTest openErr ldb db entries e he with hT | hR
    · have hn := createMigrationsTable_eventName ldb e hT
      cases e <;> simp_all [eventName]
    · obtain ⟨g, hg, hge⟩ := runFiles_trace_mem db _ e hR
      have hname := processFile_eventName db g e hge
      by_cases hgn : g.name = n
      · have hq : db.hasRunQ g.name = ScanRes.val 1 := by
          have hfield : db.hasRunQ g.name =
              (if ledger.contains g.name then ScanRes.val 1 else ScanRes.noRows) := rfl
          rw [hfield, hgn, hrec]
          simp
        have he2 := processFile_recorded_no_side_effects db g hq e hge
        subst he2
        simp
      · cases e <;> simp_all [eventName]

/-- Witness for C2: with `001_init.sql` already recorded, a re-run touches it
with neither execution nor insert. -/
theorem c2_witness :
    execCount (migrate envHappy false openAlwaysOk ldbExisting
      (ledgerDb [f001.name] (fun _ => Except.ok ddl1) (fun _ => none)
        (fun _ _ => none) 100) (Except.ok [f001])).2 f001.name = 0 ∧
    insertCount (migrate envHappy false openAlwaysOk ldbExisting
      (ledgerDb [f001.name] (fun _ => Except.ok ddl1) (fun _ => none)
        (fun _ _ => none) 100) (Except.ok [f001])).2 f001.name = 0 :=
  c2_recorded_migration_skipped envHappy false openAlwaysOk ldbExisting [f001.name]
    (fun _ => Except.ok ddl1) (fun _ => none) (fun _ _ => none) 100 [f001] f001.name
    (by decide)

/-- C3: migrations are applied in lexicographic filename order (sorted,
`ioutil.ReadDir` order, a permutation of the raw listing), and on a
nil-returning run the trace is the concatenation of each file's complete
loop-body trace in that order: each file finishes (lookup, execution, ledger
record, notification) before the next is considered. -/
theorem c3_lexicographic_order_full_blocks
    (db : Db) (entries : List FileEntry)
    (hok : (runMigrations db (Except.ok entries)).1 = Except.ok ()) :
    List.Pairwise nameLe (sortByName entries)
    ∧ (sortByName entries).Perm entries
    ∧ (runMigrations db (Except.ok entries)).2 =
        ((sortByName entries).map (fun f => (processFile db f).2)).flatten := by
  refine ⟨sortByName_sorted entries, sortByName_perm entries, ?_⟩
  have hrm : runMigrations db (Except.ok entries) = runFiles db (sortByName entries) :=
    rfl
  rw [hrm] at hok ⊢
  exact runFiles_ok_trace db _ hok

/-- The two fixture names compare in the expected lexicographic order. -/
theorem not_le_f002_f001 : ¬ (f002.name ≤ f001.name) := by
  rw [String.le_iff_toList_le]
  decide

/-- Sorting the two-element fixture listing swaps it into name order. -/
theorem sort_f002_f001 : sortByName [f002, f001] = [f001, f002] := by
  show insertByName f002 (insertByName f001 []) = [f001, f002]
  show insertByName f002 [f001] = [f001, f002]
  unfold insertByName
  rw [if_neg not_le_f002_f001]
  rfl

/-- Witness for C3 at a two-file listing given out of order. -/
theorem c3_witness :
    List.Pairwise nameLe (sortByName [f002, f001])
    ∧ (sortByName [f002, f001]).Perm [f002, f001]
    ∧ (runMigrations dbHappy (Except.ok [f002, f001])).2 =
        ((sortByName [f002, f001]).map (fun f => (processFile dbHappy f).2)).flatten :=
  c3_lexicographic_order_full_blocks dbHappy [f002, f001] (by
    show (runFiles dbHappy (sortByName [f002, f001])).1 = Except.ok ()
    rw [sort_f002_f001]
    rfl)

/-- C4: when a migration file's SQL execution fails, the run returns that
error: the trace ends right after the failed execution, no ledger insert is
issued for the file, and no later-ordered file is looked up, read or
executed. -/
theorem c4_exec_failure_halts
    (db : Db) (entries l1 l2 : List FileEntry) (F : FileEntry) (c msg : String)
    (hnodup : (entries.map FileEntry.name).Nodup)
    (hsplit : sortByName entries = l1 ++ F :: l2)
    (hpre : ∀ g ∈ l1, (processFile db g).1 = none)
    (hdir : F.isDir = false) (hsql : hasSqlExt F.name = true)
    (hq : db.hasRunQ F.name = ScanRes.noRows)
    (hread : db.readFile F.name = Except.ok c)
    (hx : db.execSql c = some msg) :
    (runMigrations db (Except.ok entries)).1 = Except.error msg
    ∧ (runMigrations db (Except.ok entries)).2 =
        (l1.map (fun g => (processFile db g).2)).flatten ++
          [Event.query F.name, Event.readF F.name, Event.exec F.name c]
    ∧ insertCount (runMigrations db (Except.ok entries)).2 F.name = 0
    ∧ ∀ g ∈ l2, touchCount (runMigrations db (Except.ok entries)).2 g.name = 0 := by
  have hrm : runMigrations db (Except.ok entries) = runFiles db (sortByName entries) :=
    rfl
  have hpf := processFile_exec_fail db F c msg hdir hsql hq hread hx
  have hstop := runFiles_cons_stop db F l2 msg _ hpf
  have happ := runFiles_append_go db l1 (F :: l2) hpre
  have heq : runFiles db (sortByName entries) =
      (Except.error msg, (l1.map (fun g => (processFile db g).2)).flatten ++
        [Event.query F.name, Event.readF F.name, Event.exec F.name c]) := by
    rw [hsplit, happ, hstop]
  have hnodup2 : ((l1 ++ F :: l2).map FileEntry.name).Nodup := by
    rw [← hsplit]
    exact ((sortByName_perm entries).map FileEntry.name).nodup_iff.mpr hnodup
  rw [List.map_append, List.map_cons, List.nodup_append] at hnodup2
  obtain ⟨hn1, hn2, hdisj⟩ := hnodup2
  have h1 : ∀ g ∈ l1, g.name ≠ F.name := by
    intro g hg hgn
    exact hdisj (List.mem_map_of_mem FileEntry.name hg)
      (by rw [hgn]; exact List.mem_cons_self F.name _)
  refine ⟨by rw [hrm, heq], by rw [hrm, heq], ?_, ?_⟩
  · rw [hrm, heq]
    have hj1 := counts_zero_flatten db l1 F.name h1
    simp only [insertCount_append, hj1.2.1]
    simp [insertCount]
  · intro g hg
    have hgF : F.name ≠ g.name := by
      intro he
      exact (List.nodup_cons.mp hn2).1 (he ▸ List.mem_map_of_mem FileEntry.name hg)
    have hgl1 : ∀ h2 ∈ l1, h2.name ≠ g.name := by
      intro h2 hh2 hn
      exact hdisj (List.mem_map_of_mem FileEntry.name hh2)
        (by rw [hn]; exact List.mem_cons_of_mem _ (List.mem_map_of_mem FileEntry.name hg))
    rw [hrm, heq]
    have hj1 := counts_zero_flatten db l1 g.name hgl1
    simp only [touchCount_append, hj1.2.2]
    simp [touchCount, eventName, hgF]

/-- Concrete fixture: an error message used in failure witnesses. -/
def boomMsg : String := "syntax error"

/-- Concrete fixture: a database where every SQL execution fails. -/
def dbExecFail : Db :=
  ledgerDb [] (fun _ => Except.ok ddl1) (fun _ => some boomMsg) (fun _ _ => none) 100

/-- Witness for C4: `001_init.sql` fails, the run stops with its error,
records nothing for it and never touches `002_add_index.sql`. -/
theorem c4_witness :
    (runMigrations dbExecFail (Except.ok [f002, f001])).1 = Except.error boomMsg
    ∧ insertCount (runMigrations dbExecFail (Except.ok [f002, f001])).2 f001.name = 0
    ∧ touchCount (runMigrations dbExecFail (Except.ok [f002, f001])).2 f002.name = 0 := by
  obtain ⟨h1, h2, h3, h4⟩ :=
    c4_exec_failure_halts dbExecFail [f002, f001] [] [f002] f001 ddl1 boomMsg
      (by decide) (by rw [sort_f002_f001]; rfl) (by simp) rfl (by decide) rfl rfl rfl
  exact ⟨h1, h3, h4 f002 (by simp)⟩

/-- Concrete fixture: a database whose ledger lookup always fails with an
unknown error. -/
def dbQueryErr : Db :=
  { hasRunQ := fun _ => ScanRes.err boomMsg
    readFile := fun _ => Except.ok ddl1
    execSql := fun _ => none
    insertRes := fun _ _ => none
    now := 100 }

/-- Concrete fixture: a ledger table that does not exist yet. -/
def ldbAbsent : LedgerDb := { showTables := ScanRes.noRows, createRes := none }

/-- Concrete fixture: a table-existence probe failing with an unknown
error. -/
def ldbProbeErr : LedgerDb := { showTables := ScanRes.err boomMsg, createRes := none }

/-- Concrete fixture: the connection options resolved from `envHappy`. -/
def optsHappy : ConnOptions :=
  { addr := ["localhost:9000"], database := "logme", username := "", password := "",
    compressionLZ4 := true, maxExecutionTime := 60 }

/-- C5: the `sql.ErrNoRows` condition is treated as a non-error meaning
not-present — a no-rows `HasRun` lookup proceeds to read and run the file,
and a no-rows existence probe proceeds to create the table — while any other
error from the per-file lookup aborts the run with that error, and any other
error from the existence probe panics, aborting the whole migrate invocation
before any per-file work. -/
theorem c5_norows_nonfatal_other_errors_fatal
    (db : Db) (f : FileEntry) (rest : List FileEntry) (ldb : LedgerDb)
    (env : Env) (isTest : Bool) (openErr : ConnOptions → Option String)
    (opts : ConnOptions) (db2 : Db) (msg : String)
    (hdir : f.isDir = false) (hsql : hasSqlExt f.name = true) :
    (db.hasRunQ f.name = ScanRes.noRows → Event.readF f.name ∈ (processFile db f).2)
    ∧ (db.hasRunQ f.name = ScanRes.err msg →
        runFiles db (f :: rest) = (Except.error msg, [Event.query f.name]))
    ∧ (ldb.showTables = ScanRes.noRows →
        (createMigrationsTable ldb).2 = [Event.ensureProbe, Event.createTable])
    ∧ (ldb.showTables = ScanRes.err msg →
        createMigrationsTable ldb = (TableOutcome.panicked msg, [Event.ensureProbe]))
    ∧ (ldb.showTables = ScanRes.err msg →
        (getDbConn env isTest openErr).1 = Except.ok opts →
        ∀ listing, migrate env isTest openErr ldb db2 listing =
          (MigrateOutcome.panicked msg, [Event.ensureProbe])) := by
  refine ⟨?_, ?_, ?_, ?_, ?_⟩
  · intro hq
    exact processFile_noRows_reads db f hdir hsql hq
  · intro hq
    exact runFiles_cons_stop db f rest msg _ (processFile_query_err db f msg hdir hsql hq)
  · intro hq
    unfold createMigrationsTable
    rw [hq]
    rcases hc : ldb.createRes with _ | m <;> simp
  · intro hq
    unfold createMigrationsTable
    rw [hq]
  · intro hq hconn listing
    have htab : createMigrationsTable ldb = (TableOutcome.panicked msg, [Event.ensureProbe]) := by
      unfold createMigrationsTable
      rw [hq]
    unfold migrate
    rw [hconn, htab]

/-- Witness for C5: concrete no-rows and unknown-error scenarios. -/
theorem c5_witness :
    Event.readF f001.name ∈ (processFile dbHappy f001).2
    ∧ runFiles dbQueryErr [f001] = (Except.error boomMsg, [Event.query f001.name])
    ∧ (createMigrationsTable ldbAbsent).2 = [Event.ensureProbe, Event.createTable]
    ∧ migrate envHappy false openAlwaysOk ldbProbeErr dbHappy (Except.ok [f001]) =
        (MigrateOutcome.panicked boomMsg, [Event.ensureProbe]) := by
  refine ⟨?_, ?_, ?_, ?_⟩
  · exact (c5_norows_nonfatal_other_errors_fatal dbHappy f001 [] ldbAbsent envHappy
      false openAlwaysOk optsHappy dbHappy boomMsg rfl (by decide)).1 rfl
  · exact (c5_norows_nonfatal_other_errors_fatal dbQueryErr f001 [] ldbAbsent envHappy
      false openAlwaysOk optsHappy dbHappy boomMsg rfl (by decide)).2.1 rfl
  · exact (c5_norows_nonfatal_other_errors_fatal dbHappy f001 [] ldbAbsent envHappy
      false openAlwaysOk optsHappy dbHappy boomMsg rfl (by decide)).2.2.1 rfl
  · exact (c5_norows_nonfatal_other_errors_fatal dbHappy f001 [] ldbProbeErr envHappy
      false openAlwaysOk optsHappy dbHappy boomMsg rfl (by decide)).2.2.2.2 rfl rfl
      (Except.ok [f001])

/-- Whether a `getDbConn` result is the configuration error (as opposed to a
`clickhouse.Open` failure or success). -/
def isConfigErr : Except ConnErr ConnOptions → Bool
  | .error (.config _) => true
  | _ => false

/-- C6: connection-parameter resolution prefers `DB_ADDR`, falls back to
`DB_LOCAL_ADDR`, returns the configuration error exactly when both are
unset — in which case `clickhouse.Open` is never reached — and on success the
database name defaults to `logme` when `DB_NAME` is unset, with `_test`
appended in test mode. -/
theorem c6_connection_resolution (env : Env) (isTest : Bool)
    (openErr : ConnOptions → Option String) :
    (isConfigErr (getDbConn env isTest openErr).1 = true ↔
      (env.dbAddr = "" ∧ env.dbLocalAddr = ""))
    ∧ (env.dbAddr = "" ∧ env.dbLocalAddr = "" →
        (getDbConn env isTest openErr).2 = false
        ∧ (getDbConn env isTest openErr).1 =
            Except.error (ConnErr.config dbAddrRequiredMsg))
    ∧ (∀ opts, (getDbConn env isTest openErr).1 = Except.ok opts →
        opts.addr = [if env.dbAddr = "" then env.dbLocalAddr else env.dbAddr]
        ∧ opts.database = (if env.dbName = "" then defaultDbName else env.dbName) ++
            (if isTest then testSuffix else "")) := by
  by_cases ha : env.dbAddr = ""
  · by_cases hl : env.dbLocalAddr = ""
    · refine ⟨?_, fun _ => ⟨?_, ?_⟩, ?_⟩
      · simp [getDbConn, ha, hl, isConfigErr]
      · simp [getDbConn, ha, hl]
      · simp [getDbConn, ha, hl]
      · intro opts hopts
        simp [getDbConn, ha, hl] at hopts
    · rcases ho : openErr
          { addr := [env.dbLocalAddr]
            database := (if env.dbName = "" then defaultDbName else env.dbName) ++
              (if isTest then testSuffix else "")
            username := env.dbUser
            password := env.dbPass
            compressionLZ4 := true
            maxExecutionTime := 60 } with _ | msg
      · refine ⟨?_, fun hc => absurd hc.2 hl, ?_⟩
        · simp [getDbConn, ha, hl, ho, isConfigErr]
        · intro opts hopts
          simp [getDbConn, ha, hl, ho] at hopts
          subst hopts
          simp [ha]
      · refine ⟨?_, fun hc => absurd hc.2 hl, ?_⟩
        · simp [getDbConn, ha, hl, ho, isConfigErr]
        · intro opts hopts
          simp [getDbConn, ha, hl, ho] at hopts
  · rcases ho : openErr
        { addr := [env.dbAddr]
          database := (if env.dbName = "" then defaultDbName else env.dbName) ++
            (if isTest then testSuffix else "")
          username := env.dbUser
          password := env.dbPass
          compressionLZ4 := true
          maxExecutionTime := 60 } with _ | msg
    · refine ⟨?_, fun hc => absurd hc.1 ha, ?_⟩
      · simp [getDbConn, ha, ho, isConfigErr]
      · intro opts hopts
        simp [getDbConn, ha, ho] at hopts
        subst hopts
        simp [ha]
    · refine ⟨?_, fun hc => absurd hc.1 ha, ?_⟩
      · simp [getDbConn, ha, ho, isConfigErr]
      · intro opts hopts
        simp [getDbConn, ha, ho] at hopts

/-- Concrete fixture: an environment with neither address variable set. -/
def envEmpty : Env :=
  { dbAddr := "", dbLocalAddr := "", dbName := "", dbUser := "", dbPass := "" }

/-- Witness for C6: with both addresses unset the result is the
configuration error and the open call is never reached. -/
theorem c6_witness :
    isConfigErr (getDbConn envEmpty false openAlwaysOk).1 = true
    ∧ (getDbConn envEmpty false openAlwaysOk).2 = false := by
  have h := c6_connection_resolution envEmpty false openAlwaysOk
  exact ⟨h.1.mpr ⟨rfl, rfl⟩, (h.2.1 ⟨rfl, rfl⟩).1⟩

/-- The timestamp column name the specification describes. -/
def appliedAtCol : String := "applied_at"

/-- C7 counterexample: the ledger table is not created with columns
`(name, applied_at)` ordered by `(name, applied_at)` — the source's
timestamp column is named `dt`. -/
theorem c7_counterexample :
    createTableColumns.map Prod.fst ≠ [defaultNameCol, appliedAtCol]
    ∧ createTableOrderBy ≠ [defaultNameCol, appliedAtCol] := by
  constructor <;> decide

/-- A ledger oracle faithful to a store where the table either exists or
not: the probe scans the table's name when present and yields no rows
otherwise. -/
def ledgerTableDb (tableExists : Bool) (createRes : Option String) : LedgerDb :=
  { showTables :=
      if tableExists then ScanRes.val migrationsTableName else ScanRes.noRows
    createRes := createRes }

/-- C7 amended: on every migrate invocation the ledger table's existence is
probed and, if absent, the table is created with columns `(name, dt)`
ordered by `(name, dt)`, all before any per-file existence check; when the
table already exists no create statement is issued. -/
theorem c7_amended_ensure_before_run (env : Env) (isTest : Bool)
    (openErr : ConnOptions → Option String) (opts : ConnOptions) (db : Db)
    (entries : List FileEntry) (tableExists : Bool) (createRes : Option String)
    (hopen : (getDbConn env isTest openErr).1 = Except.ok opts) :
    (createTableColumns.map Prod.fst = [defaultNameCol, defaultDtCol]
      ∧ createTableOrderBy = [defaultNameCol, defaultDtCol])
    ∧ (tableExists = true →
        createMigrationsTable (ledgerTableDb tableExists createRes) =
          (TableOutcome.ok false, [Event.ensureProbe]))
    ∧ (tableExists = false →
        (createMigrationsTable (ledgerTableDb tableExists createRes)).2 =
          [Event.ensureProbe, Event.createTable])
    ∧ ∃ post,
        (migrate env isTest openErr (ledgerTableDb tableExists createRes) db
            (Except.ok entries)).2 =
          (createMigrationsTable (ledgerTableDb tableExists createRes)).2 ++ post
        ∧ ∀ e ∈ post, e ≠ Event.ensureProbe ∧ e ≠ Event.createTable := by
  refine ⟨⟨rfl, rfl⟩, ?_, ?_, ?_⟩
  · intro ht
    subst ht
    simp [ledgerTableDb, createMigrationsTable, migrationsTableName]
  · intro ht
    subst ht
    rcases createRes with _ | m <;>
      simp [ledgerTableDb, createMigrationsTable]
  · unfold migrate
    rw [hopen]
    rcases ht2 : createMigrationsTable (ledgerTableDb tableExists createRes)
      with ⟨tout, ttr⟩
    rcases tout with created | m | m
    · simp only [runMigrations]
      rcases hr : runFiles db (sortByName entries) with ⟨rr, rtr⟩
      refine ⟨rtr, ?_, ?_⟩
      · rcases rr with m | u <;> simp
      · intro e he
        obtain ⟨g, hg, hge⟩ := runFiles_trace_mem db (sortByName entries) e
          (by rw [hr]; exact he)
        have hname := processFile_eventName db g e hge
        cases e <;> simp_all [eventName]
    · exact ⟨[], by simp, by simp⟩
    · exact ⟨[], by simp, by simp⟩

/-- Witness for C7: an existing table yields no create statement; an absent
one yields the probe followed by the create. -/
theorem c7_witness :
    createMigrationsTable (ledgerTableDb true none) =
      (TableOutcome.ok false, [Event.ensureProbe])
    ∧ (createMigrationsTable (ledgerTableDb false none)).2 =
      [Event.ensureProbe, Event.createTable] := by
  have h1 := c7_amended_ensure_before_run envHappy false openAlwaysOk optsHappy
    dbHappy [f001] true none rfl
  have h2 := c7_amended_ensure_before_run envHappy false openAlwaysOk optsHappy
    dbHappy [f001] false none rfl
  exact ⟨h1.2.1 rfl, h2.2.2.1 rfl⟩

/-- Concrete fixture: a failed shell-out with empty captured stdout. -/
def execFailBoom : ExecResult := { out := "", err := some boomMsg }

/-- C8 counterexample: the `test` subcommand swallows its execution error —
its shelled-out command fails, yet `test` returns nil. -/
theorem c8_counterexample :
    execFailBoom.err = some boomMsg
    ∧ (testContainers execFailBoom).1 = Except.ok () :=
  ⟨rfl, rfl⟩

/-- C8 amended: `up`, `down` and `list` print the captured stdout on success
and propagate any execution error as a non-nil result, but `test` prints the
captured stdout and discards any execution error, returning nil
unconditionally. -/
theorem c8_amended_updownlist_propagate_test_swallows (r : ExecResult) (msg : String) :
    (r.err = some msg →
      (up r).1 = Except.error msg ∧ (down r).1 = Except.error msg ∧
      (listContainers r).1 = Except.error msg)
    ∧ (r.err = none →
      up r = (Except.ok (), [r.out ++ lineBreak]) ∧
      down r = (Except.ok (), [r.out ++ lineBreak]) ∧
      listContainers r = (Except.ok (), [r.out ++ lineBreak]))
    ∧ testContainers r = (Except.ok (), [r.out ++ lineBreak]) := by
  refine ⟨?_, ?_, rfl⟩
  · intro h
    unfold up down listContainers
    rw [h]
    exact ⟨rfl, rfl, rfl⟩
  · intro h
    unfold up down listContainers
    rw [h]
    exact ⟨rfl, rfl, rfl⟩

/-- Witness for C8: `up` propagates the very failure that `test` swallows. -/
theorem c8_amended_witness :
    (up execFailBoom).1 = Except.error boomMsg
    ∧ testContainers execFailBoom = (Except.ok (), [execFailBoom.out ++ lineBreak]) := by
  have h := c8_amended_updownlist_propagate_test_swallows execFailBoom boomMsg
  exact ⟨(h.1 rfl).1, h.2.2⟩

/-- C9: a directory entry, or an entry without the `.sql` extension, is never
selected: the run's trace holds no ledger lookup, file read, execution,
insert or notification for it. -/
theorem c9_non_candidates_untouched
    (db : Db) (entries : List FileEntry) (E : FileEntry)
    (hnodup : (entries.map FileEntry.name).Nodup)
    (hE : E ∈ entries)
    (hskip : E.isDir = true ∨ hasSqlExt E.name = false) :
    touchCount (runMigrations db (Except.ok entries)).2 E.name = 0 := by
  have hrm : runMigrations db (Except.ok entries) = runFiles db (sortByName entries) :=
    rfl
  rw [hrm, touchCount, List.countP_eq_zero]
  intro e he
  obtain ⟨g, hg, hge⟩ := runFiles_trace_mem db (sortByName entries) e he
  have hname := processFile_eventName db g e hge
  by_cases hgE : g.name = E.name
  · have hgE2 : g = E := by
      have hginE : g ∈ entries := (sortByName_perm entries).mem_iff.mp hg
      exact List.inj_on_of_nodup_map hnodup hginE hE hgE
    subst hgE2
    rcases hskip with hd | hs
    · rw [processFile_skip_dir db g hd] at hge
      simp at hge
    · rcases hd2 : g.isDir with _ | _
      · rw [processFile_skip_ext db g hd2 hs] at hge
        simp at hge
      · rw [processFile_skip_dir db g hd2] at hge
        simp at hge
  · simp [hname, hgE]

/-- Witness for C9: `notes.txt` is in the directory yet never touched. -/
theorem c9_witness :
    touchCount (runMigrations dbHappy (Except.ok [fNotes])).2 fNotes.name = 0 :=
  c9_non_candidates_untouched dbHappy [fNotes] fNotes (by decide) (by decide)
    (Or.inr (by decide))

/-- C10: on every invocation `main` loads `.env` before dispatch: whatever
the process environment and requested subcommand, a failed load is fatal
with nothing dispatched, and a subcommand is dispatched only when the load
succeeded. -/
theorem c10_dotenv_load_fatal_before_dispatch (e : String) (env : Env)
    (cmd : String) :
    mainEntry (some e) env cmd = MainOutcome.fatalEnvLoad
    ∧ mainEntry none env cmd = MainOutcome.dispatched (dispatch cmd) :=
  ⟨rfl, rfl⟩
